import Mathlib

/-!
Verification development for the SerenityJS math collision library
(`vec3f.rs`, `collision/aabb.rs`, `collision/ray.rs`).

The Rust source works on `f64`.  We embed `f64` as the value type
`FP`: a rational number or one of the IEEE special values NaN, +inf,
-inf.  The special values, comparisons, `signum`, `floor`, and the
division-by-zero cases follow the IEEE-754 / Rust rules exactly; but
arithmetic on finite values is EXACT rational arithmetic, with no
rounding to 53 bits and no signed zero (`0.0` is modelled as
`FP.fin 0`, matching `+0.0`).

Consequences of that idealisation, stated up front:

* For every concrete-input statement proved below, the real `f64` run
  takes the same branches and produces the same values as the exact
  model (each was checked by hand against binary64; the traversal
  example has a single rounding event, a tie `3 * fl(1/3)` that rounds
  to exactly `1.0`, agreeing with the exact value `1`).

* Properties of the real program that hinge on rounding are NOT
  derivable here.  In particular real `f64` addition absorbs increments
  below half an ulp (`1.0 + 1e-16 = 1.0`, `2^53 + 1.0 = 2^53`), so in
  the real program the traversal loop's `tmax += step_size` can stall
  at `1.0` (no termination for `|direction| > 2^53`) and
  `current_position += 1.0` can stall at `2^53` (repeated predicate
  coordinates).  Claims asserting termination or unit-step adjacency
  of the traversal are therefore settled from those failing inputs as
  code bugs — the theorems below only evaluate the code's quantities
  at the failing inputs; no exact-model theorem is offered as proof of
  the rounded program's behaviour there.
-/

inductive FP where
  | nan : FP
  | inf : FP
  | ninf : FP
  | fin : ℚ → FP
deriving DecidableEq

/-- Exact rational addition, written on numerators and denominators so
that the kernel can evaluate it (the library's `Rat.add` is opaque to
kernel reduction); `qadd_eq` proves it is ordinary `+`. -/
def qadd (a b : ℚ) : ℚ := Rat.divInt (a.num * b.den + b.num * a.den) (a.den * b.den)

/-- Exact rational multiplication in kernel-evaluable form; `qmul_eq`
proves it is ordinary `*`. -/
def qmul (a b : ℚ) : ℚ := Rat.divInt (a.num * b.num) (a.den * b.den)

/-- Exact rational division in kernel-evaluable form (`x / 0 = 0`, as
in the library); `qdiv_eq` proves it is ordinary `/`. -/
def qdiv (a b : ℚ) : ℚ := Rat.divInt (a.num * b.den) (a.den * b.num)

lemma qadd_eq (a b : ℚ) : qadd a b = a + b := by
  rw [qadd]
  conv_rhs => rw [← Rat.num_divInt_den a, ← Rat.num_divInt_den b]
  rw [Rat.divInt_add_divInt _ _ (by exact_mod_cast a.den_nz) (by exact_mod_cast b.den_nz)]

lemma qmul_eq (a b : ℚ) : qmul a b = a * b := by
  rw [qmul]
  conv_rhs => rw [← Rat.num_divInt_den a, ← Rat.num_divInt_den b]
  rw [Rat.divInt_mul_divInt']

lemma qdiv_eq (a b : ℚ) : qdiv a b = a / b := by
  rw [qdiv]
  conv_rhs => rw [← Rat.num_divInt_den a, ← Rat.num_divInt_den b]
  rw [Rat.divInt_div_divInt]

/-- IEEE `<` : any comparison involving NaN is false. -/
def FP.lt : FP → FP → Bool
  | .nan, _ => false
  | _, .nan => false
  | .ninf, .ninf => false
  | .ninf, _ => true
  | _, .ninf => false
  | .inf, _ => false
  | .fin _, .inf => true
  | .fin a, .fin b => decide (a < b)

/-- IEEE `<=` : any comparison involving NaN is false. -/
def FP.le : FP → FP → Bool
  | .nan, _ => false
  | _, .nan => false
  | .ninf, _ => true
  | _, .ninf => false
  | _, .inf => true
  | .inf, _ => false
  | .fin a, .fin b => decide (a ≤ b)

/-- IEEE `==` : NaN is not equal to anything, including itself. -/
def FP.ieeeEq : FP → FP → Bool
  | .nan, _ => false
  | _, .nan => false
  | .inf, .inf => true
  | .inf, _ => false
  | _, .inf => false
  | .ninf, .ninf => true
  | .ninf, _ => false
  | _, .ninf => false
  | .fin a, .fin b => decide (a = b)

def FP.neg : FP → FP
  | .nan => .nan
  | .inf => .ninf
  | .ninf => .inf
  | .fin a => .fin (-a)

/-- Addition: IEEE rules on the special values; finite addition is
EXACT rational addition.  Real `f64` addition rounds the sum to 53
bits, absorbing increments below half an ulp of the larger operand
(`1.0 + 1e-16 = 1.0`, `2^53 + 1.0 = 2^53`); this model does not, so a
statement whose truth depends on that absorption must not be settled
from this definition (see the module header). -/
def FP.add : FP → FP → FP
  | .nan, _ => .nan
  | _, .nan => .nan
  | .inf, .ninf => .nan
  | .ninf, .inf => .nan
  | .inf, _ => .inf
  | _, .inf => .inf
  | .ninf, _ => .ninf
  | _, .ninf => .ninf
  | .fin a, .fin b => .fin (qadd a b)

def FP.sub (a b : FP) : FP := FP.add a (FP.neg b)

def FP.mul : FP → FP → FP
  | .nan, _ => .nan
  | _, .nan => .nan
  | .inf, .inf => .inf
  | .inf, .ninf => .ninf
  | .ninf, .inf => .ninf
  | .ninf, .ninf => .inf
  | .inf, .fin b => if b = 0 then .nan else if 0 < b then .inf else .ninf
  | .fin a, .inf => if a = 0 then .nan else if 0 < a then .inf else .ninf
  | .ninf, .fin b => if b = 0 then .nan else if 0 < b then .ninf else .inf
  | .fin a, .ninf => if a = 0 then .nan else if 0 < a then .ninf else .inf
  | .fin a, .fin b => .fin (qmul a b)

/-- IEEE division with a `+0.0` denominator model: `a / 0` is `+inf`
for `a > 0`, `-inf` for `a < 0`, NaN for `a = 0`. -/
def FP.div : FP → FP → FP
  | .nan, _ => .nan
  | _, .nan => .nan
  | .inf, .inf => .nan
  | .inf, .ninf => .nan
  | .ninf, .inf => .nan
  | .ninf, .ninf => .nan
  | .inf, .fin b => if b < 0 then .ninf else .inf
  | .ninf, .fin b => if b < 0 then .inf else .ninf
  | .fin _, .inf => .fin 0
  | .fin _, .ninf => .fin 0
  | .fin a, .fin b =>
      if b = 0 then (if a = 0 then .nan else if 0 < a then .inf else .ninf)
      else .fin (qdiv a b)

def FP.floorF : FP → FP
  | .nan => .nan
  | .inf => .inf
  | .ninf => .ninf
  | .fin a => .fin (⌊a⌋ : ℚ)

/-- Rust `f64::signum`: `1.0` for positive, zero, or `+inf`; `-1.0` for
negative or `-inf`; NaN for NaN.  It never returns `0`. -/
def FP.signum : FP → FP
  | .nan => .nan
  | .inf => .fin 1
  | .ninf => .fin (-1)
  | .fin a => if a < 0 then .fin (-1) else .fin 1

/-- True when the value is a finite number. -/
def FP.isFin : FP → Bool
  | .fin _ => true
  | _ => false

/-- True when the value is not NaN. -/
def FP.notNan : FP → Bool
  | .nan => false
  | _ => true

/-- The `Axis` enumeration from `vec3f.rs`. -/
inductive Axis where
  | X : Axis
  | Y : Axis
  | Z : Axis
deriving DecidableEq

/-- The `Vector3f` struct from `vec3f.rs`, over the `f64` model `FP`. -/
structure Vector3f where
  x : FP
  y : FP
  z : FP
deriving DecidableEq

def Vector3f.dot (self other : Vector3f) : FP :=
  FP.add (FP.add (FP.mul self.x other.x) (FP.mul self.y other.y)) (FP.mul self.z other.z)

def Vector3f.square_length (self : Vector3f) : FP :=
  self.dot self

def Vector3f.add (self other : Vector3f) : Vector3f :=
  ⟨FP.add self.x other.x, FP.add self.y other.y, FP.add self.z other.z⟩

def Vector3f.subtract (self other : Vector3f) : Vector3f :=
  ⟨FP.sub self.x other.x, FP.sub self.y other.y, FP.sub self.z other.z⟩

def Vector3f.floor (self : Vector3f) : Vector3f :=
  ⟨self.x.floorF, self.y.floorF, self.z.floorF⟩

/-- Source `equals`: component-wise `f64` `==` (so NaN components make
it false). -/
def Vector3f.equals (self other : Vector3f) : Bool :=
  FP.ieeeEq self.x other.x && FP.ieeeEq self.y other.y && FP.ieeeEq self.z other.z

def Vector3f.axis (self : Vector3f) : Axis → FP
  | .X => self.x
  | .Y => self.y
  | .Z => self.z

/-- The `AABB` struct from `collision/aabb.rs`. -/
structure AABB where
  min : Vector3f
  max : Vector3f
deriving DecidableEq

/-- The internal `Face` struct from `collision/aabb.rs`. -/
structure Face where
  axis : Axis
  value : FP

/-- The `HitResult` struct from `collision/hit.rs`. -/
structure HitResult where
  distance : FP
  position : Vector3f
deriving DecidableEq

def AABB.contains (self : AABB) (v : Vector3f) : Bool :=
  FP.le self.min.x v.x && FP.le v.x self.max.x &&
  FP.le self.min.y v.y && FP.le v.y self.max.y &&
  FP.le self.min.z v.z && FP.le v.z self.max.z

def AABB.within (self : AABB) (v : Vector3f) : Bool :=
  if FP.lt v.x self.min.x || FP.lt self.max.x v.x then false
  else if FP.lt v.y self.min.y || FP.lt self.max.y v.y then false
  else FP.le self.min.z v.z && FP.le v.z self.max.z

/-- The `EPSILON` constant of `intersects` (`1e-7`; in the exact model,
the rational `1/10^7`). -/
def EPSILON : FP := FP.fin (mkRat 1 10000000)

def AABB.intersects (self aabb : AABB) : Bool :=
  if FP.lt (FP.sub aabb.max.x self.min.x) EPSILON || FP.lt (FP.sub self.max.x aabb.min.x) EPSILON then false
  else if FP.lt (FP.sub aabb.max.y self.min.y) EPSILON || FP.lt (FP.sub self.max.y aabb.min.y) EPSILON then false
  else FP.lt EPSILON (FP.sub aabb.max.z self.min.z) && FP.lt EPSILON (FP.sub self.max.z aabb.min.z)

def AABB.on_line (axis : Axis) (vec_a vec_b : Vector3f) (value : FP) : Option Vector3f :=
  let axis_a := vec_a.axis axis
  let axis_b := vec_b.axis axis
  let f := FP.div (FP.sub value axis_a) (FP.sub axis_b axis_a)
  if FP.lt f (FP.fin 0) || FP.lt (FP.fin 1) f then none
  else some
    { x := if axis = Axis.X then value else FP.add vec_a.x (FP.mul (FP.sub vec_b.x vec_a.x) f)
      y := if axis = Axis.Y then value else FP.add vec_a.y (FP.mul (FP.sub vec_b.y vec_a.y) f)
      z := if axis = Axis.Z then value else FP.add vec_a.z (FP.mul (FP.sub vec_b.z vec_a.z) f) }

/-- Source `within_axis`.  The source panics when fewer than two axes
are supplied and returns `false` for more than two; the panic case is
modelled as `false` (no claim reaches it: `intercept` always supplies
exactly two axes via `get_axis`). -/
def AABB.within_axis (self : AABB) (axis : List Axis) (vector : Vector3f) : Bool :=
  match axis with
  | [first, second] =>
      let vec_axis_a := vector.axis first
      let vec_axis_b := vector.axis second
      if FP.lt vec_axis_b (self.min.axis second) || FP.lt (self.max.axis second) vec_axis_b then false
      else FP.le (self.min.axis first) vec_axis_a && FP.le vec_axis_a (self.max.axis first)
  | _ => false

def AABB.get_axis : Axis → List Axis
  | .X => [Axis.Y, Axis.Z]
  | .Y => [Axis.X, Axis.Z]
  | .Z => [Axis.X, Axis.Y]

/-- The body of `intercept`'s `for face in faces` loop, acting on the
accumulator `(min_distance, hit_position)`. -/
def AABB.interceptStep (aabb : AABB) (start e : Vector3f)
    (state : FP × Option Vector3f) (face : Face) : FP × Option Vector3f :=
  match AABB.on_line face.axis start e face.value with
  | none => state
  | some vector =>
      if !(aabb.within_axis (AABB.get_axis face.axis) vector) then state
      else
        let vector_distance := vector.square_length
        if FP.lt state.1 vector_distance then state
        else (vector_distance, some vector)

def AABB.intercept (aabb : AABB) (start e : Vector3f) : Option HitResult :=
  let faces : List Face :=
    [⟨Axis.X, aabb.min.x⟩, ⟨Axis.X, aabb.max.x⟩,
     ⟨Axis.Y, aabb.min.y⟩, ⟨Axis.Y, aabb.max.y⟩,
     ⟨Axis.Z, aabb.min.z⟩, ⟨Axis.Z, aabb.max.z⟩]
  let r := faces.foldl (AABB.interceptStep aabb start e) (FP.inf, none)
  match r.2 with
  | none => none
  | some v => some ⟨r.1, v⟩

/-- The `Raycaster::sign` function from `collision/ray.rs`:
component-wise Rust `signum`. -/
def Raycaster.sign (vector : Vector3f) : Vector3f :=
  ⟨vector.x.signum, vector.y.signum, vector.z.signum⟩

/-- The `Raycaster::step_size` function from `collision/ray.rs`. -/
def Raycaster.step_size (step direction : Vector3f) : Vector3f :=
  ⟨if FP.ieeeEq step.x (FP.fin 0) then FP.inf else FP.div step.x direction.x,
   if FP.ieeeEq step.y (FP.fin 0) then FP.inf else FP.div step.y direction.y,
   if FP.ieeeEq step.z (FP.fin 0) then FP.inf else FP.div step.z direction.z⟩

/-- The `Raycaster::boundary` function from `collision/ray.rs`:
`n.floor() - n`. -/
def Raycaster.boundary (n : FP) : FP :=
  FP.sub n.floorF n

/-- The initial `tmax` vector computed inline in `transverse_blocks`
(`collision/ray.rs`, the `let mut tmax` binding). -/
def Raycaster.initial_tmax (step step_size direction : Vector3f) : Vector3f :=
  ⟨FP.mul step_size.x (if FP.lt (FP.fin 0) step.x then FP.sub (FP.fin 1) (Raycaster.boundary direction.x) else Raycaster.boundary direction.x),
   FP.mul step_size.y (if FP.lt (FP.fin 0) step.y then FP.sub (FP.fin 1) (Raycaster.boundary direction.y) else Raycaster.boundary direction.y),
   FP.mul step_size.z (if FP.lt (FP.fin 0) step.z then FP.sub (FP.fin 1) (Raycaster.boundary direction.z) else Raycaster.boundary direction.z)⟩

/-- The condition of the `while` loop of `transverse_blocks`. -/
def Raycaster.loopCond (tmax : Vector3f) : Bool :=
  FP.le tmax.x (FP.fin 1) || FP.le tmax.y (FP.fin 1) || FP.le tmax.z (FP.fin 1)

/-- One iteration body of the `while` loop of `transverse_blocks`: pick
the axis with the smallest `tmax` (X preferred over Y over Z exactly as
the source's nested strict comparisons do), advance the position by
`step` and that axis's `tmax` by `step_size`. -/
def Raycaster.loopStep (step step_size : Vector3f) (pos tmax : Vector3f) : Vector3f × Vector3f :=
  if FP.lt tmax.x tmax.y && FP.lt tmax.x tmax.z then
    (⟨FP.add pos.x step.x, pos.y, pos.z⟩, ⟨FP.add tmax.x step_size.x, tmax.y, tmax.z⟩)
  else if FP.lt tmax.y tmax.z then
    (⟨pos.x, FP.add pos.y step.y, pos.z⟩, ⟨tmax.x, FP.add tmax.y step_size.y, tmax.z⟩)
  else
    (⟨pos.x, pos.y, FP.add pos.z step.z⟩, ⟨tmax.x, tmax.y, FP.add tmax.z step_size.z⟩)

/-- The `while` loop of `transverse_blocks`, with explicit fuel.  The
returned list is the sequence of positions passed to the predicate
inside the loop; the boolean is `true` when the loop exited on its own
terms (condition false or predicate returned true) and `false` when
the fuel ran out first. -/
def Raycaster.tLoop (cond : Vector3f → Bool) (step step_size : Vector3f) :
    ℕ → Vector3f → Vector3f → List Vector3f × Bool
  | 0, _, tmax => ([], !Raycaster.loopCond tmax)
  | n + 1, pos, tmax =>
      if Raycaster.loopCond tmax then
        let st := Raycaster.loopStep step step_size pos tmax
        if cond st.1 then ([st.1], true)
        else
          let r := Raycaster.tLoop cond step step_size n st.1 st.2
          (st.1 :: r.1, r.2)
      else ([], true)

/-- The `Raycaster::transverse_blocks` function from
`collision/ray.rs`, embedded with explicit fuel.  The returned list is
the exact sequence of coordinates passed to the predicate, in call
order; the boolean is `true` when the traversal finished (early return
or loop exit) rather than running out of fuel. -/
def Raycaster.transverse_blocks (fuel : ℕ) (start e : Vector3f) (cond : Vector3f → Bool) :
    List Vector3f × Bool :=
  if start.equals e then ([], true)
  else
    let direction := e.subtract start
    let current_position := start.floor
    if cond current_position then ([current_position], true)
    else
      let step := Raycaster.sign direction
      let step_size := Raycaster.step_size step direction
      let tmax := Raycaster.initial_tmax step step_size direction
      let r := Raycaster.tLoop cond step step_size fuel current_position tmax
      (current_position :: r.1, r.2)

/-! Helper predicates and facts used by the verification statements. -/

/-- All three components are finite numbers. -/
def finiteV (v : Vector3f) : Bool :=
  v.x.isFin && v.y.isFin && v.z.isFin

/-- No component is NaN. -/
def notNanV (v : Vector3f) : Bool :=
  v.x.notNan && v.y.notNan && v.z.notNan

/-- No corner component of the box is NaN. -/
def notNanBox (b : AABB) : Bool :=
  notNanV b.min && notNanV b.max

/-- All corner components of the box are finite numbers. -/
def finiteBox (b : AABB) : Bool :=
  finiteV b.min && finiteV b.max

@[simp] lemma FP.lt_fin_fin (a b : ℚ) : FP.lt (.fin a) (.fin b) = decide (a < b) := rfl

@[simp] lemma FP.le_fin_fin (a b : ℚ) : FP.le (.fin a) (.fin b) = decide (a ≤ b) := rfl

@[simp] lemma FP.lt_inf_any (b : FP) : FP.lt .inf b = false := by cases b <;> rfl

@[simp] lemma FP.lt_fin_inf (a : ℚ) : FP.lt (.fin a) .inf = true := rfl

@[simp] lemma FP.le_inf_fin (b : ℚ) : FP.le .inf (.fin b) = false := rfl

@[simp] lemma FP.lt_nan_any (b : FP) : FP.lt .nan b = false := by cases b <;> rfl

@[simp] lemma FP.lt_any_nan (a : FP) : FP.lt a .nan = false := by cases a <;> rfl

@[simp] lemma FP.add_fin_fin (a b : ℚ) : FP.add (.fin a) (.fin b) = .fin (a + b) := by
  simp [FP.add, qadd_eq]

@[simp] lemma FP.mul_any_nan (a : FP) : FP.mul a .nan = .nan := by cases a <;> rfl

@[simp] lemma FP.add_any_nan (a : FP) : FP.add a .nan = .nan := by cases a <;> rfl

lemma FP.le_eq_not_lt (a b : FP) (ha : a.notNan = true) (hb : b.notNan = true) :
    FP.le a b = !FP.lt b a := by
  cases a <;> cases b <;>
    simp_all [FP.le, FP.lt, FP.notNan, ← decide_not, not_lt]

lemma FP.lt_eq_not_le (a b : FP) (ha : a.notNan = true) (hb : b.notNan = true) :
    FP.lt a b = !FP.le b a := by
  rw [FP.le_eq_not_lt b a hb ha, Bool.not_not]

lemma tLoop_add_fuel (cond : Vector3f → Bool) (step step_size : Vector3f) :
    ∀ (n k : ℕ) (pos tmax : Vector3f),
      (Raycaster.tLoop cond step step_size n pos tmax).2 = true →
      Raycaster.tLoop cond step step_size (n + k) pos tmax =
        Raycaster.tLoop cond step step_size n pos tmax := by
  intro n
  induction n with
  | zero =>
      intro k pos tmax h
      have hlc : Raycaster.loopCond tmax = false := by
        simpa [Raycaster.tLoop] using h
      cases k with
      | zero => rfl
      | succ m =>
          simp [Raycaster.tLoop, hlc, Nat.zero_add]
  | succ m ih =>
      intro k pos tmax h
      have hrw : m + 1 + k = (m + k) + 1 := by omega
      rw [hrw]
      by_cases hlc : Raycaster.loopCond tmax = true
      · by_cases hc : cond (Raycaster.loopStep step step_size pos tmax).1 = true
        · simp [Raycaster.tLoop, hlc, hc]
        · have h2 : (Raycaster.tLoop cond step step_size m
              (Raycaster.loopStep step step_size pos tmax).1
              (Raycaster.loopStep step step_size pos tmax).2).2 = true := by
            simpa [Raycaster.tLoop, hlc, hc] using h
          simp [Raycaster.tLoop, hlc, hc, ih k _ _ h2]
      · simp only [Bool.not_eq_true] at hlc
        simp [Raycaster.tLoop, hlc]

lemma transverse_blocks_add_fuel (n k : ℕ) (start e : Vector3f) (cond : Vector3f → Bool)
    (h : (Raycaster.transverse_blocks n start e cond).2 = true) :
    Raycaster.transverse_blocks (n + k) start e cond =
      Raycaster.transverse_blocks n start e cond := by
  by_cases heq : start.equals e = true
  · simp [Raycaster.transverse_blocks, heq]
  · simp only [Bool.not_eq_true] at heq
    by_cases hc : cond start.floor = true
    · simp [Raycaster.transverse_blocks, heq, hc]
    · simp only [Bool.not_eq_true] at hc
      have h2 := h
      simp only [Raycaster.transverse_blocks, heq, hc, Bool.false_eq_true, if_false] at h2 ⊢
      rw [tLoop_add_fuel _ _ _ n k _ _ h2]

/-- C5: `traverseBlocks` from `(0.5,0.5,0.5)` to `(3.5,0.5,0.5)` with an
always-false predicate calls the predicate exactly on
`(0,0,0),(1,0,0),(2,0,0),(3,0,0)` in that order and then returns (the
returned flag `true` means the traversal finished on its own; the
statement holds for every fuel of at least 4, so the fuel parameter of
the embedding does not cut the run short). -/
theorem claim_C5 : ∀ k : ℕ,
    Raycaster.transverse_blocks (4 + k)
      ⟨.fin (mkRat 1 2), .fin (mkRat 1 2), .fin (mkRat 1 2)⟩
      ⟨.fin (mkRat 7 2), .fin (mkRat 1 2), .fin (mkRat 1 2)⟩
      (fun _ => false) =
    ([⟨.fin 0, .fin 0, .fin 0⟩, ⟨.fin 1, .fin 0, .fin 0⟩,
      ⟨.fin 2, .fin 0, .fin 0⟩, ⟨.fin 3, .fin 0, .fin 0⟩], true) := by
  intro k
  rw [transverse_blocks_add_fuel 4 k _ _ _ (by decide)]
  decide

/-- C6: `intercept` of the segment `(-5,0.5,0.5) → (5,0.5,0.5)` against
the box `min=(0,0,0), max=(1,1,1)` returns a hit at `(0,0.5,0.5)` (the
−X face) whose `distance` is the squared Euclidean length of the hit
position, `0.5`. -/
theorem claim_C6 :
    AABB.intercept ⟨⟨.fin 0, .fin 0, .fin 0⟩, ⟨.fin 1, .fin 1, .fin 1⟩⟩
      ⟨.fin (-5), .fin (mkRat 1 2), .fin (mkRat 1 2)⟩
      ⟨.fin 5, .fin (mkRat 1 2), .fin (mkRat 1 2)⟩ =
      some ⟨.fin (mkRat 1 2), ⟨.fin 0, .fin (mkRat 1 2), .fin (mkRat 1 2)⟩⟩ ∧
    (⟨.fin 0, .fin (mkRat 1 2), .fin (mkRat 1 2)⟩ : Vector3f).square_length =
      .fin (mkRat 1 2) := by
  constructor
  · decide
  · decide

lemma FP.div_sub_self (v : FP) : FP.div (FP.sub v v) (FP.sub v v) = .nan := by
  cases v with
  | nan => rfl
  | inf => rfl
  | ninf => rfl
  | fin q =>
      have h : qadd q (-q) = 0 := by rw [qadd_eq]; ring
      simp [FP.sub, FP.neg, FP.add, FP.div, h]

/-- C10: when both endpoints have the queried axis component equal to
the plane `value`, the interpolation fraction is `0/0 = NaN`, which
passes the `f < 0 || f > 1` rejection (NaN comparisons are false), so
`on_line` returns `Some` point: the queried axis is pinned to `value`
and the other two components are NaN. -/
theorem claim_C10 (axis : Axis) (vec_a vec_b : Vector3f) (value : FP)
    (ha : vec_a.axis axis = value) (hb : vec_b.axis axis = value) :
    AABB.on_line axis vec_a vec_b value =
      some ⟨if axis = Axis.X then value else .nan,
            if axis = Axis.Y then value else .nan,
            if axis = Axis.Z then value else .nan⟩ := by
  simp only [AABB.on_line, ha, hb, FP.div_sub_self]
  simp [FP.lt_nan_any, FP.lt_any_nan, FP.mul_any_nan, FP.add_any_nan]

/-- C10 witness: the degenerate segment `(5,1,2) → (5,3,4)` against the
plane `x = 5` yields `Some (5, NaN, NaN)`. -/
theorem claim_C10_witness :
    AABB.on_line Axis.X ⟨.fin 5, .fin 1, .fin 2⟩ ⟨.fin 5, .fin 3, .fin 4⟩ (.fin 5) =
      some ⟨.fin 5, .nan, .nan⟩ := by
  have h := claim_C10 Axis.X ⟨.fin 5, .fin 1, .fin 2⟩ ⟨.fin 5, .fin 3, .fin 4⟩ (.fin 5) rfl rfl
  simpa using h

/-- C1 counterexample: for the box `(-1,-1,-1)..(1,1,1)` and the
segment `(-2,0,0) → (2,0,0)`, the −X face (first in enumeration order)
yields the valid in-bounds crossing `(-1,0,0)` and the +X face yields
`(1,0,0)`, both with squared distance `1`; `intercept` returns the +X
hit `(1,0,0)`, so the later equal-distance candidate DID replace the
earlier one, contradicting the claim that the first face wins ties. -/
theorem claim_C1_counterexample :
    AABB.intercept ⟨⟨.fin (-1), .fin (-1), .fin (-1)⟩, ⟨.fin 1, .fin 1, .fin 1⟩⟩
      ⟨.fin (-2), .fin 0, .fin 0⟩ ⟨.fin 2, .fin 0, .fin 0⟩ =
      some ⟨.fin 1, ⟨.fin 1, .fin 0, .fin 0⟩⟩ ∧
    AABB.on_line Axis.X ⟨.fin (-2), .fin 0, .fin 0⟩ ⟨.fin 2, .fin 0, .fin 0⟩ (.fin (-1)) =
      some ⟨.fin (-1), .fin 0, .fin 0⟩ ∧
    AABB.within_axis ⟨⟨.fin (-1), .fin (-1), .fin (-1)⟩, ⟨.fin 1, .fin 1, .fin 1⟩⟩
      (AABB.get_axis Axis.X) ⟨.fin (-1), .fin 0, .fin 0⟩ = true ∧
    (⟨.fin (-1), .fin 0, .fin 0⟩ : Vector3f).square_length =
      (⟨.fin 1, .fin 0, .fin 0⟩ : Vector3f).square_length := by
  refine ⟨by decide, by decide, by decide, by decide⟩

/-- C1 amended: in the face loop of `intercept`, a candidate whose
squared distance is NOT strictly greater than the current best (in
particular an equal one) always replaces the current best — the last
face in enumeration order wins ties, not the first; the strict `>`
comparison only skips strictly farther candidates. -/
theorem claim_C1_amended (aabb : AABB) (start e : Vector3f)
    (state : FP × Option Vector3f) (face : Face) (vector : Vector3f)
    (h1 : AABB.on_line face.axis start e face.value = some vector)
    (h2 : aabb.within_axis (AABB.get_axis face.axis) vector = true)
    (h3 : FP.lt state.1 vector.square_length = false) :
    AABB.interceptStep aabb start e state face = (vector.square_length, some vector) := by
  simp [AABB.interceptStep, h1, h2, h3]

/-- C1 witness: the +X face of the counterexample, arriving with the −X
face's equal-distance hit as the current best, replaces it. -/
theorem claim_C1_witness :
    AABB.interceptStep ⟨⟨.fin (-1), .fin (-1), .fin (-1)⟩, ⟨.fin 1, .fin 1, .fin 1⟩⟩
      ⟨.fin (-2), .fin 0, .fin 0⟩ ⟨.fin 2, .fin 0, .fin 0⟩
      (.fin 1, some ⟨.fin (-1), .fin 0, .fin 0⟩) ⟨Axis.X, .fin 1⟩ =
      ((⟨.fin 1, .fin 0, .fin 0⟩ : Vector3f).square_length,
        some ⟨.fin 1, .fin 0, .fin 0⟩) :=
  claim_C1_amended ⟨⟨.fin (-1), .fin (-1), .fin (-1)⟩, ⟨.fin 1, .fin 1, .fin 1⟩⟩
    ⟨.fin (-2), .fin 0, .fin 0⟩ ⟨.fin 2, .fin 0, .fin 0⟩
    (.fin 1, some ⟨.fin (-1), .fin 0, .fin 0⟩) ⟨Axis.X, .fin 1⟩
    ⟨.fin 1, .fin 0, .fin 0⟩ (by decide) (by decide) (by decide)

lemma FP.signum_cases (f : FP) (h : f.notNan = true) :
    (f.signum = .fin 1 ∨ f.signum = .fin (-1)) ∧ (f = .fin 0 → f.signum = .fin 1) := by
  cases f with
  | nan => simp [FP.notNan] at h
  | inf => simp [FP.signum]
  | ninf => simp [FP.signum]
  | fin q =>
      constructor
      · by_cases hq : q < 0
        · right; simp [FP.signum, hq]
        · left; simp [FP.signum, hq]
      · intro h0
        have : q = 0 := by injection h0
        simp [FP.signum, this]

/-- C3 counterexample: Rust's `signum` maps `0.0` to `1.0`, so the step
vector for the all-zero direction is `(1,1,1)`, not `(0,0,0)`: a
component of the direction being zero does NOT make the corresponding
step component zero. -/
theorem claim_C3_counterexample :
    Raycaster.sign ⟨.fin 0, .fin 0, .fin 0⟩ = ⟨.fin 1, .fin 1, .fin 1⟩ ∧
    FP.fin (1 : ℚ) ≠ FP.fin 0 := by
  refine ⟨by decide, by decide⟩

/-- C3 amended: for every non-NaN direction component the corresponding
step component of `Raycaster::sign` is `+1` or `-1` — never `0`; in
particular a zero component yields `+1` (a non-moving axis is instead
neutralised later, through `step_size` dividing by the zero direction
to give `tMax = +infinity`). -/
theorem claim_C3_amended (v : Vector3f) (a : Axis) (h : (v.axis a).notNan = true) :
    ((Raycaster.sign v).axis a = .fin 1 ∨ (Raycaster.sign v).axis a = .fin (-1)) ∧
    (v.axis a = .fin 0 → (Raycaster.sign v).axis a = .fin 1) := by
  cases a <;> exact FP.signum_cases _ h

/-- C3 witness: the direction `(0,-2,5)` gets step component `+1` on
the (zero) X axis. -/
theorem claim_C3_witness :
    (Raycaster.sign ⟨.fin 0, .fin (-2), .fin 5⟩).axis Axis.X = .fin 1 :=
  (claim_C3_amended ⟨.fin 0, .fin (-2), .fin 5⟩ Axis.X (by decide)).2 (by decide)

/-- C8 counterexample: for the box `(0,0,0)..(1,1,1)` and the point
`(NaN, 0.5, 0.5)`, `contains` is false (the NaN comparison fails the
conjunction) but `within` is true (both NaN comparisons in its
early-return test are false, so the X axis is never rejected): the two
operations do NOT return the same value for every point. -/
theorem claim_C8_counterexample :
    AABB.contains ⟨⟨.fin 0, .fin 0, .fin 0⟩, ⟨.fin 1, .fin 1, .fin 1⟩⟩
      ⟨.nan, .fin (mkRat 1 2), .fin (mkRat 1 2)⟩ = false ∧
    AABB.within ⟨⟨.fin 0, .fin 0, .fin 0⟩, ⟨.fin 1, .fin 1, .fin 1⟩⟩
      ⟨.nan, .fin (mkRat 1 2), .fin (mkRat 1 2)⟩ = true := by
  refine ⟨by decide, by decide⟩

lemma bool_contains_within (p q r s t u : Bool) :
    (p && q && r && s && t && u) =
      (if (!p || !q) = true then false else if (!r || !s) = true then false else t && u) := by
  cases p <;> cases q <;> cases r <;> cases s <;> rfl

/-- C8 amended: `contains` and `within` agree on every box and point
whose components are all non-NaN (the divergence of the claim's
counterexample is NaN-only: both are the inclusive bounds test on all
three axes). -/
theorem claim_C8_amended (b : AABB) (v : Vector3f)
    (hb : notNanBox b = true) (hv : notNanV v = true) :
    b.contains v = b.within v := by
  simp only [notNanBox, notNanV, Bool.and_eq_true] at hb hv
  obtain ⟨⟨⟨h1, h2⟩, h3⟩, ⟨⟨h4, h5⟩, h6⟩⟩ := hb
  obtain ⟨⟨h7, h8⟩, h9⟩ := hv
  unfold AABB.contains AABB.within
  rw [FP.lt_eq_not_le v.x b.min.x h7 h1, FP.lt_eq_not_le b.max.x v.x h4 h7,
      FP.lt_eq_not_le v.y b.min.y h8 h2, FP.lt_eq_not_le b.max.y v.y h5 h8]
  exact bool_contains_within _ _ _ _ _ _

/-- C8 witness: `contains` and `within` agree at the box
`(0,0,0)..(1,1,1)` and the point `(1/2, 1/4, 3/4)`. -/
theorem claim_C8_witness :
    AABB.contains ⟨⟨.fin 0, .fin 0, .fin 0⟩, ⟨.fin 1, .fin 1, .fin 1⟩⟩
      ⟨.fin (mkRat 1 2), .fin (mkRat 1 4), .fin (mkRat 3 4)⟩ =
    AABB.within ⟨⟨.fin 0, .fin 0, .fin 0⟩, ⟨.fin 1, .fin 1, .fin 1⟩⟩
      ⟨.fin (mkRat 1 2), .fin (mkRat 1 4), .fin (mkRat 3 4)⟩ :=
  claim_C8_amended _ _ (by decide) (by decide)

lemma FP.isFin_iff (f : FP) : f.isFin = true ↔ ∃ q : ℚ, f = .fin q := by
  cases f <;> simp [FP.isFin]

@[simp] lemma FP.sub_fin_fin (a b : ℚ) : FP.sub (.fin a) (.fin b) = .fin (a - b) := by
  simp [FP.sub, FP.neg, FP.add, qadd_eq, sub_eq_add_neg]

lemma decide_le_eq_not_lt (p q : ℚ) : decide (p ≤ q) = !decide (q < p) := by
  simp [← decide_not, not_lt]

/-- C7 counterexample: for the boxes `A = (0,0,0)..(1,1,1)` and
`B = (0,0,0)..(1e-7,1,1)` the X-axis overlap margin
`B.max.x - A.min.x` equals exactly `1e-7` (hence is `≤ 1e-7`), yet
`intersects` reports `true` — the claim that any margin `≤ 1e-7` is
reported as NOT intersecting is false: on X and Y the code rejects only
margins strictly below epsilon. -/
theorem claim_C7_counterexample :
    AABB.intersects ⟨⟨.fin 0, .fin 0, .fin 0⟩, ⟨.fin 1, .fin 1, .fin 1⟩⟩
      ⟨⟨.fin 0, .fin 0, .fin 0⟩, ⟨EPSILON, .fin 1, .fin 1⟩⟩ = true ∧
    FP.le (FP.sub EPSILON (.fin 0)) EPSILON = true := by
  refine ⟨by decide, by decide⟩

/-- C7 amended: for finite boxes, `intersects` is true exactly when the
X- and Y-axis overlap margins are each at least `1e-7` (a margin equal
to epsilon passes) and the Z-axis margins each strictly exceed `1e-7`;
in particular an exact face touch (zero margin) reports false and
overlap strictly above `1e-7` on every axis reports true. -/
theorem claim_C7_amended (a b : AABB) (ha : finiteBox a = true) (hb : finiteBox b = true) :
    AABB.intersects a b =
      (FP.le EPSILON (FP.sub b.max.x a.min.x) && FP.le EPSILON (FP.sub a.max.x b.min.x) &&
       FP.le EPSILON (FP.sub b.max.y a.min.y) && FP.le EPSILON (FP.sub a.max.y b.min.y) &&
       FP.lt EPSILON (FP.sub b.max.z a.min.z) && FP.lt EPSILON (FP.sub a.max.z b.min.z)) := by
  simp only [finiteBox, finiteV, Bool.and_eq_true] at ha hb
  obtain ⟨⟨⟨ha1, ha2⟩, ha3⟩, ⟨⟨ha4, ha5⟩, ha6⟩⟩ := ha
  obtain ⟨⟨⟨hb1, hb2⟩, hb3⟩, ⟨⟨hb4, hb5⟩, hb6⟩⟩ := hb
  obtain ⟨a1, e1⟩ := (FP.isFin_iff _).mp ha1
  obtain ⟨a2, e2⟩ := (FP.isFin_iff _).mp ha2
  obtain ⟨a3, e3⟩ := (FP.isFin_iff _).mp ha3
  obtain ⟨a4, e4⟩ := (FP.isFin_iff _).mp ha4
  obtain ⟨a5, e5⟩ := (FP.isFin_iff _).mp ha5
  obtain ⟨a6, e6⟩ := (FP.isFin_iff _).mp ha6
  obtain ⟨b1, f1⟩ := (FP.isFin_iff _).mp hb1
  obtain ⟨b2, f2⟩ := (FP.isFin_iff _).mp hb2
  obtain ⟨b3, f3⟩ := (FP.isFin_iff _).mp hb3
  obtain ⟨b4, f4⟩ := (FP.isFin_iff _).mp hb4
  obtain ⟨b5, f5⟩ := (FP.isFin_iff _).mp hb5
  obtain ⟨b6, f6⟩ := (FP.isFin_iff _).mp hb6
  unfold AABB.intersects
  rw [e1, e2, e3, e4, e5, e6, f1, f2, f3, f4, f5, f6]
  simp only [FP.sub_fin_fin, EPSILON, FP.lt_fin_fin, FP.le_fin_fin]
  rw [decide_le_eq_not_lt, decide_le_eq_not_lt, decide_le_eq_not_lt, decide_le_eq_not_lt]
  cases decide (b4 - a1 < mkRat 1 10000000) <;>
    cases decide (a4 - b1 < mkRat 1 10000000) <;>
      cases decide (b5 - a2 < mkRat 1 10000000) <;>
        cases decide (a5 - b2 < mkRat 1 10000000) <;>
          simp

/-- C7 witness: boxes `(0,0,0)..(1,1,1)` and `(1/2,1/2,1/2)..(3/2,3/2,3/2)`
(overlap `1/2` on every axis) instantiate the amended characterisation. -/
theorem claim_C7_witness :
    AABB.intersects ⟨⟨.fin 0, .fin 0, .fin 0⟩, ⟨.fin 1, .fin 1, .fin 1⟩⟩
      ⟨⟨.fin (mkRat 1 2), .fin (mkRat 1 2), .fin (mkRat 1 2)⟩,
       ⟨.fin (mkRat 3 2), .fin (mkRat 3 2), .fin (mkRat 3 2)⟩⟩ =
      (FP.le EPSILON (FP.sub (FP.fin (mkRat 3 2)) (.fin 0)) &&
       FP.le EPSILON (FP.sub (FP.fin 1) (.fin (mkRat 1 2))) &&
       FP.le EPSILON (FP.sub (FP.fin (mkRat 3 2)) (.fin 0)) &&
       FP.le EPSILON (FP.sub (FP.fin 1) (.fin (mkRat 1 2))) &&
       FP.lt EPSILON (FP.sub (FP.fin (mkRat 3 2)) (.fin 0)) &&
       FP.lt EPSILON (FP.sub (FP.fin 1) (.fin (mkRat 1 2)))) :=
  claim_C7_amended ⟨⟨.fin 0, .fin 0, .fin 0⟩, ⟨.fin 1, .fin 1, .fin 1⟩⟩
    ⟨⟨.fin (mkRat 1 2), .fin (mkRat 1 2), .fin (mkRat 1 2)⟩,
     ⟨.fin (mkRat 3 2), .fin (mkRat 3 2), .fin (mkRat 3 2)⟩⟩ (by decide) (by decide)

lemma init_tmax_comp (a : ℚ) (ha : a ≠ 0) :
    FP.mul (if FP.ieeeEq (FP.signum (.fin a)) (FP.fin 0) = true then FP.inf
            else FP.div (FP.signum (.fin a)) (.fin a))
      (if FP.lt (FP.fin 0) (FP.signum (.fin a)) = true
       then FP.sub (FP.fin 1) (Raycaster.boundary (.fin a))
       else Raycaster.boundary (.fin a)) =
    .fin (if 0 < a then (1 + a - ⌊a⌋) / a else (a - ⌊a⌋) / a) := by
  have hb : Raycaster.boundary (.fin a) = .fin ((⌊a⌋ : ℚ) - a) := by
    simp [Raycaster.boundary, FP.floorF]
  rcases lt_or_gt_of_ne ha with h | h
  · have hs : FP.signum (.fin a) = .fin (-1) := by simp [FP.signum, h]
    have h1 : FP.ieeeEq (FP.fin (-1)) (FP.fin 0) = false := by
      norm_num [FP.ieeeEq]
    have h2 : FP.lt (FP.fin 0) (FP.fin (-1)) = false := by
      norm_num [FP.lt]
    have h3 : FP.div (FP.fin (-1)) (FP.fin a) = .fin (qdiv (-1) a) := by
      simp [FP.div, ha]
    rw [hs, hb, h1, h2, h3]
    simp only [Bool.false_eq_true, if_false, FP.mul]
    rw [if_neg (by linarith : ¬ (0:ℚ) < a)]
    congr 1
    rw [qmul_eq, qdiv_eq]
    field_simp
  · have hs : FP.signum (.fin a) = .fin 1 := by simp [FP.signum, not_lt.mpr (le_of_lt h)]
    have h1 : FP.ieeeEq (FP.fin 1) (FP.fin 0) = false := by
      norm_num [FP.ieeeEq]
    have h2 : FP.lt (FP.fin 0) (FP.fin 1) = true := by
      norm_num [FP.lt]
    have h3 : FP.div (FP.fin 1) (FP.fin a) = .fin (qdiv 1 a) := by
      simp [FP.div, ha]
    rw [hs, hb, h1, h2, h3]
    simp only [Bool.false_eq_true, if_false, if_true, FP.sub, FP.neg, FP.add, FP.mul]
    rw [if_pos h]
    congr 1
    rw [qmul_eq, qadd_eq, qdiv_eq]
    field_simp
    simp only [Int.fract]
    ring

/-- C2 amended: the initial `tMax` computed by `transverse_blocks` is,
per axis with direction component `d ≠ 0`, `stepSize * (1 - boundary(d))`
for `d > 0` and `stepSize * boundary(d)` for `d < 0` with
`boundary(n) = floor(n) - n` applied to the DIRECTION component — in
closed form `(1 + frac(d))/d` for `d > 0` and `-frac(d)/|d| ≤ 0` for
`d < 0`.  It depends only on the direction, not on where the start
point lies inside its cell, and is therefore not in general the
distance to the first block boundary crossing (see the
counterexample). -/
theorem claim_C2_amended (dx dy dz : ℚ) (hx : dx ≠ 0) (hy : dy ≠ 0) (hz : dz ≠ 0) :
    Raycaster.initial_tmax (Raycaster.sign ⟨.fin dx, .fin dy, .fin dz⟩)
      (Raycaster.step_size (Raycaster.sign ⟨.fin dx, .fin dy, .fin dz⟩)
        ⟨.fin dx, .fin dy, .fin dz⟩)
      ⟨.fin dx, .fin dy, .fin dz⟩ =
    ⟨.fin (if 0 < dx then (1 + dx - ⌊dx⌋) / dx else (dx - ⌊dx⌋) / dx),
     .fin (if 0 < dy then (1 + dy - ⌊dy⌋) / dy else (dy - ⌊dy⌋) / dy),
     .fin (if 0 < dz then (1 + dz - ⌊dz⌋) / dz else (dz - ⌊dz⌋) / dz)⟩ := by
  simp only [Raycaster.initial_tmax, Raycaster.sign, Raycaster.step_size, Vector3f.mk.injEq]
  exact ⟨init_tmax_comp dx hx, init_tmax_comp dy hy, init_tmax_comp dz hz⟩

/-- C2 counterexample: for the segment `(0.5,0.5,0.5) → (3.5,0.5,0.5)`
(direction `(3,0,0)`) the code's initial `tMax.x` is `1/3`, but the ray
position `0.5 + 3t` reaches the block boundary `x = 1` already at
`t = 1/6`, and `0 < 1/6 < 1/3`: the initial `tMax` is NOT the distance
(in `t` units) from the start to the first boundary crossing on the
axis — the code evaluates `boundary` on the direction component, not on
the start coordinate. -/
theorem claim_C2_counterexample :
    (Raycaster.initial_tmax
      (Raycaster.sign (Vector3f.subtract
        ⟨.fin (mkRat 7 2), .fin (mkRat 1 2), .fin (mkRat 1 2)⟩
        ⟨.fin (mkRat 1 2), .fin (mkRat 1 2), .fin (mkRat 1 2)⟩))
      (Raycaster.step_size
        (Raycaster.sign (Vector3f.subtract
          ⟨.fin (mkRat 7 2), .fin (mkRat 1 2), .fin (mkRat 1 2)⟩
          ⟨.fin (mkRat 1 2), .fin (mkRat 1 2), .fin (mkRat 1 2)⟩))
        (Vector3f.subtract
          ⟨.fin (mkRat 7 2), .fin (mkRat 1 2), .fin (mkRat 1 2)⟩
          ⟨.fin (mkRat 1 2), .fin (mkRat 1 2), .fin (mkRat 1 2)⟩))
      (Vector3f.subtract
        ⟨.fin (mkRat 7 2), .fin (mkRat 1 2), .fin (mkRat 1 2)⟩
        ⟨.fin (mkRat 1 2), .fin (mkRat 1 2), .fin (mkRat 1 2)⟩)).x =
      .fin (mkRat 1 3) ∧
    mkRat 1 2 + 3 * mkRat 1 6 = 1 ∧
    (0 : ℚ) < mkRat 1 6 ∧ (mkRat 1 6 : ℚ) < mkRat 1 3 := by
  refine ⟨by decide, ?_, by decide, by decide⟩
  rw [Rat.mkRat_eq_divInt, Rat.mkRat_eq_divInt, Rat.divInt_eq_div, Rat.divInt_eq_div]
  norm_num

/-- C2 witness: the amended closed form instantiated at the direction
`(3, -2, 1/2)` gives initial `tMax = (1/3, 0, 3)`. -/
theorem claim_C2_witness :
    Raycaster.initial_tmax (Raycaster.sign ⟨.fin 3, .fin (-2), .fin (mkRat 1 2)⟩)
      (Raycaster.step_size (Raycaster.sign ⟨.fin 3, .fin (-2), .fin (mkRat 1 2)⟩)
        ⟨.fin 3, .fin (-2), .fin (mkRat 1 2)⟩)
      ⟨.fin 3, .fin (-2), .fin (mkRat 1 2)⟩ =
    ⟨.fin (mkRat 1 3), .fin 0, .fin 3⟩ := by
  rw [claim_C2_amended 3 (-2) (mkRat 1 2) (by norm_num) (by norm_num) (by decide)]
  rw [Rat.mkRat_eq_divInt, Rat.mkRat_eq_divInt, Rat.divInt_eq_div, Rat.divInt_eq_div]
  norm_num [Vector3f.mk.injEq, Int.floor_eq_iff]

/-- C4: the termination claim is right as specified (the spec's
traversal terminates once all `tMax` exceed `1.0` or the predicate
signals stop) but the code violates it in real `f64`.  At the failing
input `start = (0,0,0)`, `end = (1e16,0,0)` the code's per-axis step
size on X is `1e-16`, which is below `2^-53 = 1/9007199254740992`
(half an ulp of `1.0`), and the initial `tMax.x = 1e-16` is `≤ 1`, so
the loop runs; in real `f64` the update `tmax.x += step_size.x` is
absorbed once `tmax.x` reaches `1.0` and the condition
`tmax.x <= 1.0` holds forever.  This theorem only evaluates the
code's quantities at that input; the non-termination itself is a
rounding effect outside the exact model. -/
theorem claim_C4_code_eval :
    Raycaster.step_size
      (Raycaster.sign ⟨.fin 10000000000000000, .fin 0, .fin 0⟩)
      ⟨.fin 10000000000000000, .fin 0, .fin 0⟩ =
      ⟨.fin (mkRat 1 10000000000000000), FP.inf, FP.inf⟩ ∧
    (Raycaster.initial_tmax
      (Raycaster.sign ⟨.fin 10000000000000000, .fin 0, .fin 0⟩)
      (Raycaster.step_size (Raycaster.sign ⟨.fin 10000000000000000, .fin 0, .fin 0⟩)
        ⟨.fin 10000000000000000, .fin 0, .fin 0⟩)
      ⟨.fin 10000000000000000, .fin 0, .fin 0⟩).x =
      .fin (mkRat 1 10000000000000000) ∧
    FP.le (FP.fin (mkRat 1 10000000000000000)) (.fin 1) = true ∧
    (mkRat 1 10000000000000000 : ℚ) < mkRat 1 9007199254740992 := by
  refine ⟨by decide, by decide, by decide, by decide⟩

/-- C9: the unit-step adjacency is the documented DDA behaviour
(advance `currentBlock` by `step` on one axis, one cell at a time) but
the code violates it in real `f64`.  At the failing input
`start = (2^53, 0.5, 0.5)`, `end = (2^53 + 4, 0.5, 0.5)` the code's
first block is `(2^53, 0, 0)` and the X step is `+1`; in real `f64`
the update `current_position.x += 1.0` computes `2^53 + 1`, a tie
between the representables `2^53` and `2^53 + 2` that rounds-to-even
back to `2^53`, so consecutive predicate calls receive the identical
coordinate instead of differing by `1` on one axis.  This theorem only
evaluates the code's quantities at that input; the stalled step is a
rounding effect outside the exact model. -/
theorem claim_C9_code_eval :
    Vector3f.floor ⟨.fin 9007199254740992, .fin (mkRat 1 2), .fin (mkRat 1 2)⟩ =
      ⟨.fin 9007199254740992, .fin 0, .fin 0⟩ ∧
    Raycaster.sign (Vector3f.subtract
      ⟨.fin 9007199254740996, .fin (mkRat 1 2), .fin (mkRat 1 2)⟩
      ⟨.fin 9007199254740992, .fin (mkRat 1 2), .fin (mkRat 1 2)⟩) =
      ⟨.fin 1, .fin 1, .fin 1⟩ := by
  refine ⟨by decide, by decide⟩
